import Mathlib

/-!
Verification of the taskfile task runner: a shallow embedding of the
environment parser (`crates/env-parser/src/lib.rs`) and of the
dependency-aware executor (`crates/runner/src/lib.rs`), with theorems
settling the behavioural claims about dependency resolution, environment
substitution, env-file loading and process-exit handling.
-/

namespace Taskfile

/-! ## Environment resolver (`crates/env-parser/src/lib.rs`) -/

/-- The character class scanned after `$` in `substitute_env_vars`:
the Rust stop condition is `!c.is_alphanumeric() && c != '_'`, so a
variable-name character is alphanumeric or underscore (Rust's
`is_alphanumeric` is Unicode-wide; the embedding uses its ASCII
fragment, which covers every name in the manifest format). -/
def isVarChar (c : Char) : Bool := c.isAlphanum || c = '_'

/-- `substitute_env_vars` (env-parser lib.rs lines 93-122), at character
level.  The cursor-based Rust loop (find next `'$'` from `start`, take the
maximal `isVarChar` run, on a defined name splice in the value and set
`start` just past the inserted value, on an undefined name leave the token
and set `start` past it, on a bare `'$'` advance by one) is rendered as
recursion on the yet-unscanned suffix: characters before the cursor,
including any value just substituted in, are emitted verbatim and never
rescanned. -/
def substAux (env : String → Option String) : List Char → List Char
  | [] => []
  | c :: rest =>
    if c = '$' then
      let name := rest.takeWhile isVarChar
      if name = [] then
        '$' :: substAux env rest
      else
        match env (String.mk name) with
        | some v => v.data ++ substAux env (rest.drop name.length)
        | none => '$' :: (name ++ substAux env (rest.drop name.length))
    else
      c :: substAux env rest
  termination_by l => l.length
  decreasing_by
    all_goals simp [List.length_drop]
    all_goals omega

/-- `substitute_env_vars` on strings. -/
def substitute_env_vars (env : String → Option String) (command : String) : String :=
  String.mk (substAux env command.data)

/-- Whitespace trimming of a line, as Rust `str::trim`. -/
def trimChars (l : List Char) : List Char :=
  ((l.dropWhile (fun c => c.isWhitespace)).reverse.dropWhile
    (fun c => c.isWhitespace)).reverse

/-- Outcome of `load_env_file`'s per-line processing: the line is skipped,
or a key/value pair is installed via `env::set_var`, or the process
panics.  The two panic sources in the Rust code are the slice
`&value[1..value.len()-1]` when the trimmed value is a single quote
character (then `starts_with` and `ends_with` both see that one character
and the range `1..0` is out of bounds), and `env::set_var`, which panics
when the key is empty. -/
inductive LineResult where
  | skip
  | install (key value : List Char)
  | panics
  deriving DecidableEq, Repr

/-- Split a trimmed line at its first `'='` (Rust `line.find('=')`);
`none` when the line contains no `'='`. -/
def splitEq (t : List Char) : Option (List Char × List Char) :=
  if t.contains '=' then
    some (t.takeWhile (fun c => c ≠ '='), (t.dropWhile (fun c => c ≠ '=')).drop 1)
  else
    none

/-- One iteration of the `load_env_file` line loop
(env-parser lib.rs lines 63-87). -/
def parseLine (line : List Char) : LineResult :=
  let t := trimChars line
  if t = [] then .skip
  else if t.head? = some '#' then .skip
  else
    match splitEq t with
    | none => .skip
    | some (k, v) =>
      let key := trimChars k
      let value := trimChars v
      if (value.head? = some '"' ∧ value.getLast? = some '"')
          ∨ (value.head? = some '\'' ∧ value.getLast? = some '\'') then
        if value.length = 1 then .panics
        else if key = [] then .panics
        else .install key ((value.drop 1).dropLast)
      else if key = [] then .panics
      else .install key value

/-- Split file content into lines at `'\n'`, as `BufRead::lines` does
(a trailing empty segment is produced here but parses as a skipped blank
line, matching Rust, which simply does not yield it). -/
def splitLines : List Char → List (List Char)
  | [] => [[]]
  | c :: rest =>
    if c = '\n' then [] :: splitLines rest
    else
      match splitLines rest with
      | [] => [[c]]
      | l :: ls => (c :: l) :: ls

/-- Update of the process environment by `env::set_var`. -/
def envSet (env : String → Option String) (k v : List Char) :
    String → Option String :=
  fun s => if s = String.mk k then some (String.mk v) else env s

/-- The `load_env_file` line loop folded over the lines: returns the
count of installed pairs and the final environment, or `none` when a line
panics (the code aborts instead of returning). -/
def loadLines (env : String → Option String) :
    List (List Char) → Option (Nat × (String → Option String))
  | [] => some (0, env)
  | line :: rest =>
    match parseLine line with
    | .skip => loadLines env rest
    | .panics => none
    | .install k v =>
      match loadLines (envSet env k v) rest with
      | none => none
      | some (n, e) => some (n + 1, e)

/-- `load_env_file` (env-parser lib.rs lines 58-91) on file content already
read into a string; the `File::open`/`lines()` I/O errors are outside the
content-level model. -/
def load_env_file (env : String → Option String) (content : String) :
    Option (Nat × (String → Option String)) :=
  loadLines env (splitLines content.data)

/-! ## Dependency-aware executor (`crates/runner/src/lib.rs`) -/

/-- The `Task` record of the manifest (runner lib.rs lines 20-25). -/
structure Task where
  cmd : String
  desc : Option String
  depends_on : Option (List String)
  deriving DecidableEq, Repr

/-- The task table of the manifest, `HashMap<String, Task>` modelled as an
association list with first-match lookup. -/
abbrev TaskTable := List (String × Task)

/-- `self.taskfile.tasks.get(task_name)`. -/
def getTask (tf : TaskTable) (name : String) : Option Task :=
  (tf.find? (fun p => p.1 = name)).map (fun p => p.2)

/-- `has_task` (runner lib.rs lines 381-383): key membership. -/
def has_task (tf : TaskTable) (name : String) : Bool :=
  (getTask tf name).isSome

/-- The ambient filesystem and operating system consulted by one run:
`check_npm_script` reading `package.json`'s string-valued `scripts`
entries, the `yarn.lock` / `pnpm-lock.yaml` probes, the
`node_modules/.bin` probe, and the outcome of `Command::spawn` and
`wait_with_output` per resolved command (`okStatus` is
`ExitStatus::code()`, `none` meaning the code is unobtainable, e.g.
signal termination; `Except.error` is a failed wait). -/
structure World where
  npmScript : String → Option String
  yarnLock : Bool
  pnpmLock : Bool
  nodeBinExists : String → Bool
  spawnOk : String → List String → Bool
  waitResult : String → List String → Except Unit (Option Int)

/-- Observable effects of a run: a child process spawn, the spawn of the
background spinner/status-reporter task, and its `abort()` call. -/
inductive Event where
  | spawned (cmd : String) (args : List String)
  | spinnerSpawned (task : String)
  | spinnerAborted (task : String)
  deriving DecidableEq, Repr

/-- The error values produced by `run_task_with_deps`; in the Rust code
they are formatted strings, modelled here with their payloads.
`outOfFuel` is an artifact of the embedding's recursion bound and
corresponds to no source behaviour. -/
inductive RunError where
  | circularDependency (task : String)
  | taskNotFound (task : String)
  | dependencyNotFound (dep task : String)
  | emptyCommand (task : String)
  | spawnFailed (task : String)
  | waitFailed (task : String)
  | taskFailed (task : String) (code : Int)
  | outOfFuel
  deriving DecidableEq, Repr

/-- Accumulator-based whitespace splitter, as `str::split_whitespace`
(empty runs discarded). -/
def splitWSAux : List Char → List Char → List (List Char)
  | acc, [] => if acc = [] then [] else [acc.reverse]
  | acc, c :: rest =>
    if c.isWhitespace then
      if acc = [] then splitWSAux [] rest else acc.reverse :: splitWSAux [] rest
    else splitWSAux (c :: acc) rest

/-- `substituted_cmd.split_whitespace()` (runner lib.rs line 269). -/
def splitWhitespace (s : String) : List String :=
  (splitWSAux [] s.data).map String.mk

/-- Command resolution (runner lib.rs lines 274-299): if the first token
names a `package.json` script, run it through the package manager probed
in the fixed order `yarn.lock` then `pnpm-lock.yaml` then the `npm`
default, as `<manager> run <token> <args>`; else if
`node_modules/.bin/<token>` exists, that path verbatim; else the token
itself. -/
def resolveCommand (w : World) (first : String) (rest : List String) :
    String × List String :=
  match w.npmScript first with
  | some _ =>
    let pm := if w.yarnLock then "yarn" else if w.pnpmLock then "pnpm" else "npm"
    (pm, "run" :: first :: rest)
  | none =>
    if w.nodeBinExists first then ("node_modules/.bin/" ++ first, rest)
    else (first, rest)

/-- The per-task execution section of `run_task_with_deps`
(runner lib.rs lines 267-374): substitute, split on whitespace (empty is
the `Empty command` error), resolve, spawn (the `?` on `spawn` returns
before the spinner task exists), spawn the spinner task, await the child
(the `?` on `wait_with_output` returns WITHOUT reaching
`spinner_task.abort()`), then abort the spinner and map exit status
`some 0` to success and anything else to a failure carrying
`code().unwrap_or(-1)`. -/
def execTask (w : World) (env : String → Option String)
    (task_name : String) (task : Task) : Except RunError Unit × List Event :=
  let substituted := substitute_env_vars env task.cmd
  match splitWhitespace substituted with
  | [] => (.error (.emptyCommand task_name), [])
  | first :: restParts =>
    let res := resolveCommand w first restParts
    if w.spawnOk res.1 res.2 then
      match w.waitResult res.1 res.2 with
      | .error _ =>
        (.error (.waitFailed task_name),
          [.spawned res.1 res.2, .spinnerSpawned task_name])
      | .ok status =>
        let tr := [Event.spawned res.1 res.2, .spinnerSpawned task_name,
          .spinnerAborted task_name]
        if status = some 0 then (.ok (), tr)
        else (.error (.taskFailed task_name (status.getD (-1))), tr)
    else (.error (.spawnFailed task_name), [])

mutual

/-- `run_task_with_deps` (runner lib.rs lines 236-379): reject a name
already on the `visited` stack as a circular dependency, look the task up
(else `TaskNotFound`), run its declared dependencies in order, then
execute its own command.  `fuel` bounds the recursion depth for the
embedding; the source recursion is bounded by the cycle check. -/
def runTask (w : World) (tf : TaskTable) (env : String → Option String)
    (fuel : Nat) (task_name : String) (visited : List String) :
    Except RunError Unit × List Event :=
  match fuel with
  | 0 => (.error .outOfFuel, [])
  | fuel' + 1 =>
    if visited.contains task_name then
      (.error (.circularDependency task_name), [])
    else
      match getTask tf task_name with
      | none => (.error (.taskNotFound task_name), [])
      | some task =>
        match runDeps w tf env fuel' task_name visited (task.depends_on.getD []) with
        | (.error e, t) => (.error e, t)
        | (.ok _, t) =>
          let r := execTask w env task_name task
          (r.1, t ++ r.2)
  termination_by (fuel, 0)

/-- The `for dep in deps` loop of `run_task_with_deps` (runner lib.rs
lines 252-264): for each dependency in declared order, check existence
first (`DependencyNotFound` naming dependency and dependent), then push
the dependent's name and recurse; the `?` propagates the first failure
unchanged and skips the remaining dependencies. -/
def runDeps (w : World) (tf : TaskTable) (env : String → Option String)
    (fuel : Nat) (task_name : String) (visited : List String)
    (deps : List String) : Except RunError Unit × List Event :=
  match deps with
  | [] => (.ok (), [])
  | dep :: rest =>
    if has_task tf dep then
      match runTask w tf env fuel dep (visited ++ [task_name]) with
      | (.error e, t) => (.error e, t)
      | (.ok _, t) =>
        match runDeps w tf env fuel task_name visited rest with
        | (r, t') => (r, t ++ t')
    else (.error (.dependencyNotFound dep task_name), [])
  termination_by (fuel, deps.length + 1)

end

/-- `run_task` (runner lib.rs lines 232-234): the top-level entry starts
with an empty in-progress stack. -/
def run_task (w : World) (tf : TaskTable) (env : String → Option String)
    (fuel : Nat) (task_name : String) : Except RunError Unit × List Event :=
  runTask w tf env fuel task_name []

/-- The child processes spawned during a run, in order. -/
def spawns (t : List Event) : List (String × List String) :=
  t.filterMap fun e =>
    match e with
    | .spawned c a => some (c, a)
    | _ => none

/-! ## Concrete fixtures for witnesses and evaluations -/

/-- Empty environment. -/
def envNil : String → Option String := fun _ => none

/-- A world with no npm material where every spawn succeeds and every
child exits with code 0. -/
def wAllOk : World :=
  ⟨fun _ => none, false, false, fun _ => false, fun _ _ => true,
    fun _ _ => .ok (some 0)⟩

/-- A world where every child exits with code 3. -/
def wExit3 : World :=
  ⟨fun _ => none, false, false, fun _ => false, fun _ _ => true,
    fun _ _ => .ok (some 3)⟩

/-- A world where waiting for the child's exit status itself fails. -/
def wWaitErr : World :=
  ⟨fun _ => none, false, false, fun _ => false, fun _ _ => true,
    fun _ _ => .error ()⟩

/-! ## Claims -/

/-- C3: running a task whose name is already on the in-progress stack
aborts the whole run immediately with a CircularDependency error naming
that task and spawns nothing; in particular a manifest where A depends on
B and B depends on A makes run_task(A) return CircularDependency naming A,
with no child process spawned. -/
theorem c3_circular_dependency (w : World) (tf : TaskTable)
    (env : String → Option String) :
    (∀ fuel name visited, visited.contains name = true →
      runTask w tf env (fuel + 1) name visited =
        (.error (.circularDependency name), [])) ∧
    (∀ fuel a b ca cb da db, a ≠ b →
      getTask tf a = some ⟨ca, da, some [b]⟩ →
      getTask tf b = some ⟨cb, db, some [a]⟩ →
      run_task w tf env (fuel + 3) a =
        (.error (.circularDependency a), [])) := by
  constructor
  · intro fuel name visited h
    rw [runTask]
    simp at h
    simp [h]
  · intro fuel a b ca cb da db hab hA hB
    rw [run_task, runTask]
    simp only [hA, List.contains, List.elem_nil, Bool.false_eq_true, if_false]
    rw [runDeps.eq_def]
    simp only [has_task, hB, Option.isSome_some, if_true, Option.getD_some]
    rw [runTask]
    simp only [hB, List.nil_append]
    rw [runDeps.eq_def]
    simp only [has_task, hA, Option.isSome_some, if_true, Option.getD_some]
    rw [runTask]
    simp [hab, Ne.symm hab]

/-- Witness for C3 on the two-task cyclic manifest. -/
theorem c3_circular_dependency_witness :
    run_task wAllOk
      [("A", ⟨"x", none, some ["B"]⟩), ("B", ⟨"y", none, some ["A"]⟩)]
      envNil 3 "A" = (.error (.circularDependency "A"), []) :=
  (c3_circular_dependency wAllOk
      [("A", ⟨"x", none, some ["B"]⟩), ("B", ⟨"y", none, some ["A"]⟩)]
      envNil).2 0 "A" "B" "x" "y" none none
    (by decide) (by simp [getTask]) (by simp [getTask])

/-- C4 counterexample: in the manifest where A depends on B and then on
the missing task Z, with B a normal task, run_task(A) does return
DependencyNotFound naming Z and A — but B's child process has already
been spawned, refuting the claim's "no child process is spawned". -/
theorem c4_counterexample :
    run_task wAllOk
      [("A", ⟨"echo a", none, some ["B", "Z"]⟩), ("B", ⟨"run", none, none⟩)]
      envNil 4 "A" =
      (.error (.dependencyNotFound "Z" "A"),
        [.spawned "run" [], .spinnerSpawned "B", .spinnerAborted "B"]) ∧
    spawns (run_task wAllOk
      [("A", ⟨"echo a", none, some ["B", "Z"]⟩), ("B", ⟨"run", none, none⟩)]
      envNil 4 "A").2 = [("run", [])] := by
  constructor <;>
    simp [run_task, runTask, runDeps, execTask, resolveCommand,
      splitWhitespace, splitWSAux, substitute_env_vars, substAux, getTask,
      has_task, wAllOk, envNil, isVarChar, List.find?, spawns]

/-- C4 amended: when the missing dependency is the first in the dependent
task's list, run_task returns DependencyNotFound naming both, with no
process spawned; the statement holds for an arbitrary in-progress stack —
in particular one already containing the missing dependency — showing the
existence check is performed before the cycle check for that
dependency. -/
theorem c4_amended (w : World) (tf : TaskTable) (env : String → Option String)
    (fuel : Nat) (name dep : String) (rest : List String) (task : Task)
    (visited : List String)
    (hget : getTask tf name = some task)
    (hdeps : task.depends_on = some (dep :: rest))
    (hmiss : has_task tf dep = false)
    (hvis : visited.contains name = false) :
    runTask w tf env (fuel + 1) name visited =
      (.error (.dependencyNotFound dep name), []) := by
  rw [runTask]
  simp at hvis
  simp only [hget, hdeps, Option.getD_some]
  rw [if_neg (by simpa using hvis)]
  rw [runDeps.eq_def]
  simp [hmiss]

/-- Witness for C4's amended claim: the missing first dependency Z is
reported even though Z is already on the in-progress stack. -/
theorem c4_amended_witness :
    runTask wAllOk [("A", ⟨"run", none, some ["Z"]⟩)] envNil 1 "A" ["Z"] =
      (.error (.dependencyNotFound "Z" "A"), []) :=
  c4_amended wAllOk [("A", ⟨"run", none, some ["Z"]⟩)] envNil 0 "A" "Z" []
    ⟨"run", none, some ["Z"]⟩ ["Z"]
    (by simp [getTask]) rfl (by simp [has_task, getTask]) (by decide)

/-- C5: the status reporter is aborted when the child's exit status is
read, on the success and nonzero-exit paths — but NOT on the wait-error
path: there the early return happens before the abort call, so the
spinner task is never aborted, contradicting the claim's "on every exit
path". -/
theorem c5_reporter_cancellation :
    (execTask wWaitErr envNil "t" ⟨"run", none, none⟩ =
      (.error (.waitFailed "t"),
        [.spawned "run" [], .spinnerSpawned "t"])) ∧
    (Event.spinnerAborted "t" ∉
      (execTask wWaitErr envNil "t" ⟨"run", none, none⟩).2) ∧
    (execTask wAllOk envNil "t" ⟨"run", none, none⟩ =
      (.ok (),
        [.spawned "run" [], .spinnerSpawned "t", .spinnerAborted "t"])) ∧
    (execTask wExit3 envNil "t" ⟨"run", none, none⟩ =
      (.error (.taskFailed "t" 3),
        [.spawned "run" [], .spinnerSpawned "t", .spinnerAborted "t"])) := by
  refine ⟨?_, ?_, ?_, ?_⟩ <;>
    simp [execTask, resolveCommand, splitWhitespace, splitWSAux,
      substitute_env_vars, substAux, wWaitErr, wAllOk, wExit3, envNil,
      isVarChar]

/-- C6: the example content loads exactly 2 variables with the expected
values, a line with no equals sign installs nothing and counts nothing,
an installed pair overwrites the prior value for its key, a properly
quoted value is unwrapped — but on the line whose trimmed value is the
single character value quote, load_env_file panics (the slice 1..0 is out
of bounds) instead of installing the lone quote verbatim and returning a
count. -/
theorem c6_env_file_load :
    ((load_env_file envNil "KEY=val\n# comment\nKEY2=val2\n").map
      Prod.fst = some 2) ∧
    ((load_env_file envNil "KEY=val\n# comment\nKEY2=val2\n").map
      (fun p => (p.2 "KEY", p.2 "KEY2")) = some (some "val", some "val2")) ∧
    ((load_env_file envNil "NOEQ\n").map Prod.fst = some 0) ∧
    ((load_env_file envNil "K=a\nK=b\n").map
      (fun p => (p.1, p.2 "K")) = some (2, some "b")) ∧
    ((load_env_file envNil "K=\"q\"\n").map
      (fun p => p.2 "K") = some (some "q")) ∧
    load_env_file envNil "KEY=\"" = none := by
  refine ⟨?_, ?_, ?_, ?_, ?_, ?_⟩ <;>
    simp [load_env_file, loadLines, splitLines, parseLine, trimChars,
      splitEq, envSet, envNil]

/-- C10: load_env_file does not process every line without panicking: a
line whose key part trims to empty reaches env::set_var with an empty
key, which panics, and a line whose trimmed value is a single quote
character panics in the quote-unwrapping slice. -/
theorem c10_load_safety :
    load_env_file envNil "=value" = none ∧
    load_env_file envNil "KEY='" = none := by
  constructor <;>
    simp [load_env_file, loadLines, splitLines, parseLine, trimChars,
      splitEq, envNil]

/-- C9: when the substituted command splits on whitespace into zero
tokens, the task's execution fails with the empty-command error naming
the task, before any attempt to spawn a process (the event trace is
empty); a dependency-free task run through run_task propagates exactly
this error. -/
theorem c9_empty_command (w : World) (tf : TaskTable)
    (env : String → Option String) (fuel : Nat) (name : String) (task : Task)
    (hget : getTask tf name = some task)
    (hdeps : task.depends_on = none)
    (hsplit : splitWhitespace (substitute_env_vars env task.cmd) = []) :
    execTask w env name task = (.error (.emptyCommand name), []) ∧
    run_task w tf env (fuel + 1) name =
      (.error (.emptyCommand name), []) := by
  have h1 : execTask w env name task = (.error (.emptyCommand name), []) := by
    simp [execTask, hsplit]
  refine ⟨h1, ?_⟩
  rw [run_task, runTask]
  simp only [List.contains, List.elem_nil, Bool.false_eq_true, if_false,
    hget, hdeps, Option.getD_none]
  rw [runDeps.eq_def]
  simp [h1]

/-- Witness for C9 on a task whose command is whitespace only. -/
theorem c9_empty_command_witness :
    run_task wAllOk [("t", ⟨"   ", none, none⟩)] envNil 1 "t" =
      (.error (.emptyCommand "t"), []) :=
  (c9_empty_command wAllOk [("t", ⟨"   ", none, none⟩)] envNil 0 "t"
    ⟨"   ", none, none⟩ (by simp [getTask]) rfl
    (by simp [splitWhitespace, splitWSAux, substitute_env_vars, substAux,
      envNil])).2

/-- C8: for a dependency-free task whose child is spawned and waited on,
run_task succeeds exactly when the exit code is 0; a nonzero exit code n
makes it fail carrying n, and an unobtainable exit code (signal
termination) makes it fail carrying -1. -/
theorem c8_exit_code (w : World) (tf : TaskTable)
    (env : String → Option String) (fuel : Nat) (name : String) (task : Task)
    (first : String) (rest : List String) (e : String) (a : List String)
    (st : Option Int)
    (hget : getTask tf name = some task)
    (hdeps : task.depends_on = none)
    (hsplit : splitWhitespace (substitute_env_vars env task.cmd) = first :: rest)
    (hres : resolveCommand w first rest = (e, a))
    (hspawn : w.spawnOk e a = true)
    (hwait : w.waitResult e a = .ok st) :
    ((execTask w env name task).1 = .ok () ↔ st = some 0) ∧
    ((run_task w tf env (fuel + 1) name).1 = .ok () ↔ st = some 0) ∧
    (∀ n : Int, st = some n → n ≠ 0 →
      (run_task w tf env (fuel + 1) name).1 =
        .error (.taskFailed name n)) ∧
    (st = none →
      (run_task w tf env (fuel + 1) name).1 =
        .error (.taskFailed name (-1))) := by
  have h1 : (run_task w tf env (fuel + 1) name).1 =
      (execTask w env name task).1 := by
    rw [run_task, runTask]
    simp only [List.contains, List.elem_nil, Bool.false_eq_true, if_false,
      hget, hdeps, Option.getD_none]
    rw [runDeps.eq_def]
  have h2 : execTask w env name task =
      (if st = some 0 then .ok () else
        .error (.taskFailed name (st.getD (-1))),
        [.spawned e a, .spinnerSpawned name, .spinnerAborted name]) := by
    simp only [execTask, hsplit, hres, hspawn, hwait, if_true]
    by_cases h0 : st = some 0 <;> simp [h0]
  refine ⟨?_, ?_, ?_, ?_⟩
  · rw [h2]
    by_cases h0 : st = some 0 <;> simp [h0]
  · rw [h1, h2]
    by_cases h0 : st = some 0 <;> simp [h0]
  · intro n hn hne
    rw [h1, h2]
    simp [hn, hne]
  · intro hn
    rw [h1, h2]
    simp [hn]

/-- Witness for C8 on a task whose child exits with code 3. -/
theorem c8_exit_code_witness :
    (run_task wExit3 [("t", ⟨"run", none, none⟩)] envNil 1 "t").1 =
      .error (.taskFailed "t" 3) :=
  (c8_exit_code wExit3 [("t", ⟨"run", none, none⟩)] envNil 0 "t"
    ⟨"run", none, none⟩ "run" [] "run" [] (some 3)
    (by simp [getTask]) rfl
    (by simp [splitWhitespace, splitWSAux, substitute_env_vars, substAux,
      envNil])
    (by simp [resolveCommand, wExit3]) rfl rfl).2.2.1 3 rfl (by decide)

/-- C7: when the first token of the split command line names a script in
the scripts registry, the resolved command is the detected package
manager run as manager run token args, the manager chosen by lockfile
probe in the fixed order yarn-lockfile, then pnpm-lockfile, then npm;
otherwise an existing local-binary-directory entry of that name is used
verbatim as the executable with the remaining tokens as arguments;
otherwise the token itself is the executable.  The spawned process of the
task's execution is exactly the resolved command. -/
theorem c7_command_resolution (w : World) (cmdline first : String)
    (rest : List String)
    (hsplit : splitWhitespace cmdline = first :: rest) :
    (∀ s, w.npmScript first = some s → w.yarnLock = true →
      resolveCommand w first rest = ("yarn", "run" :: first :: rest)) ∧
    (∀ s, w.npmScript first = some s → w.yarnLock = false →
      w.pnpmLock = true →
      resolveCommand w first rest = ("pnpm", "run" :: first :: rest)) ∧
    (∀ s, w.npmScript first = some s → w.yarnLock = false →
      w.pnpmLock = false →
      resolveCommand w first rest = ("npm", "run" :: first :: rest)) ∧
    (w.npmScript first = none → w.nodeBinExists first = true →
      resolveCommand w first rest = ("node_modules/.bin/" ++ first, rest)) ∧
    (w.npmScript first = none → w.nodeBinExists first = false →
      resolveCommand w first rest = (first, rest)) ∧
    (∀ env name task st,
      splitWhitespace (substitute_env_vars env task.cmd) = first :: rest →
      w.spawnOk (resolveCommand w first rest).1
        (resolveCommand w first rest).2 = true →
      w.waitResult (resolveCommand w first rest).1
        (resolveCommand w first rest).2 = .ok st →
      spawns (execTask w env name task).2 =
        [resolveCommand w first rest]) := by
  refine ⟨?_, ?_, ?_, ?_, ?_, ?_⟩
  · intro s hs hy
    simp [resolveCommand, hs, hy]
  · intro s hs hy hp
    simp [resolveCommand, hs, hy, hp]
  · intro s hs hy hp
    simp [resolveCommand, hs, hy, hp]
  · intro hn hb
    simp [resolveCommand, hn, hb]
  · intro hn hb
    simp [resolveCommand, hn, hb]
  · intro env name task st hs hsp hw
    simp only [execTask, hs, hsp, hw, if_true]
    by_cases h0 : st = some 0 <;> simp [h0, spawns]

/-- Witness for C7: a registered script resolved through the
pnpm lockfile. -/
theorem c7_command_resolution_witness :
    resolveCommand
      ⟨fun s => if s = "build" then some "tsc" else none, false, true,
        fun _ => false, fun _ _ => true, fun _ _ => .ok (some 0)⟩
      "build" ["--flag"] = ("pnpm", ["run", "build", "--flag"]) :=
  (c7_command_resolution
      ⟨fun s => if s = "build" then some "tsc" else none, false, true,
        fun _ => false, fun _ _ => true, fun _ _ => .ok (some 0)⟩
      "build --flag" "build" ["--flag"]
      (by simp [splitWhitespace, splitWSAux])).2.1 "tsc"
    (by simp) rfl rfl

/-- A maximal variable-name run followed by a non-name character (or the
end of input) is what the scanner's takeWhile extracts. -/
theorem takeWhile_append_eq (name rest : List Char)
    (h1 : ∀ ch ∈ name, isVarChar ch = true)
    (h2 : rest.head?.all (fun ch => !isVarChar ch) = true) :
    (name ++ rest).takeWhile isVarChar = name := by
  induction name with
  | nil =>
    cases rest with
    | nil => rfl
    | cons r rs =>
      simp at h2
      simp [List.takeWhile_cons, h2]
  | cons x xs ih =>
    simp only [List.cons_append, List.takeWhile_cons,
      h1 x (List.mem_cons_self x xs), if_true, List.cons.injEq, true_and]
    exact ih (fun ch hch => h1 ch (List.mem_cons_of_mem x hch))

/-- C2: the substitution scan replaces a dollar token whose maximal
alphanumeric/underscore name is defined by the variable's value and
resumes immediately after the inserted value (the value, spliced in
verbatim, is never rescanned); an undefined name leaves the token in the
output verbatim; a dollar not followed by any identifier character is
left untouched; every other character is copied unchanged.  The warning
printed for an undefined name is an I/O side effect outside the model. -/
theorem c2_substitution (env : String → Option String) :
    (∀ name rest v, name ≠ [] →
      (∀ ch ∈ name, isVarChar ch = true) →
      rest.head?.all (fun ch => !isVarChar ch) = true →
      env (String.mk name) = some v →
      substAux env ('$' :: (name ++ rest)) = v.data ++ substAux env rest) ∧
    (∀ name rest, name ≠ [] →
      (∀ ch ∈ name, isVarChar ch = true) →
      rest.head?.all (fun ch => !isVarChar ch) = true →
      env (String.mk name) = none →
      substAux env ('$' :: (name ++ rest)) =
        '$' :: (name ++ substAux env rest)) ∧
    (∀ rest, rest.head?.all (fun ch => !isVarChar ch) = true →
      substAux env ('$' :: rest) = '$' :: substAux env rest) ∧
    (∀ ch rest, ch ≠ '$' →
      substAux env (ch :: rest) = ch :: substAux env rest) := by
  have hdrop : ∀ (name rest : List Char),
      (name ++ rest).drop name.length = rest :=
    fun name rest => List.drop_left name rest
  refine ⟨?_, ?_, ?_, ?_⟩
  · intro name rest v hne h1 h2 henv
    rw [substAux]
    simp [takeWhile_append_eq name rest h1 h2, hne, henv, hdrop]
  · intro name rest hne h1 h2 henv
    rw [substAux]
    simp [takeWhile_append_eq name rest h1 h2, hne, henv, hdrop]
  · intro rest h2
    rw [substAux]
    have hw : rest.takeWhile isVarChar = [] := by
      cases rest with
      | nil => rfl
      | cons r rs =>
        simp at h2
        simp [List.takeWhile_cons, h2]
    simp [hw]
  · intro ch rest hch
    rw [substAux]
    simp [hch]

/-- Environment binding TEST_VAR to test_value, as in the spec's
substitution example. -/
def envTest : String → Option String :=
  fun s => if s = "TEST_VAR" then some "test_value" else none

/-- Witness for C2: the defined-name and undefined-name cases of the
spec's substitution example. -/
theorem c2_substitution_witness :
    substAux envTest ('$' :: ("TEST_VAR".data ++ " world".data)) =
      "test_value".data ++ substAux envTest " world".data ∧
    substAux envTest ('$' :: ("MISSING_VAR".data ++ " world".data)) =
      '$' :: ("MISSING_VAR".data ++ substAux envTest " world".data) :=
  ⟨(c2_substitution envTest).1 "TEST_VAR".data " world".data "test_value"
      (by decide) (by decide) (by decide) (by simp [envTest]),
   (c2_substitution envTest).2.1 "MISSING_VAR".data " world".data
      (by decide) (by decide) (by decide) (by simp [envTest])⟩

/-- C1: for a manifest with the chain A depends on B, B depends on C,
running A spawns the resolved child commands in the order C, then B, then
A; and when C's command exits nonzero, the run returns C's failure
unchanged and neither B's nor A's command is ever spawned. -/
theorem c1_chain_order_and_failure (w : World) (tf : TaskTable)
    (env : String → Option String) (fuel : Nat) (a b c : String)
    (ta tb tc : Task) (fA fB fC : String) (rA rB rC : List String)
    (pA pB pC : String × List String)
    (hab : a ≠ b) (hac : a ≠ c) (hbc : b ≠ c)
    (hA : getTask tf a = some ta) (hdA : ta.depends_on = some [b])
    (hB : getTask tf b = some tb) (hdB : tb.depends_on = some [c])
    (hC : getTask tf c = some tc) (hdC : tc.depends_on = none)
    (hsA : splitWhitespace (substitute_env_vars env ta.cmd) = fA :: rA)
    (hsB : splitWhitespace (substitute_env_vars env tb.cmd) = fB :: rB)
    (hsC : splitWhitespace (substitute_env_vars env tc.cmd) = fC :: rC)
    (hrA : resolveCommand w fA rA = pA)
    (hrB : resolveCommand w fB rB = pB)
    (hrC : resolveCommand w fC rC = pC)
    (hpA : w.spawnOk pA.1 pA.2 = true)
    (hpB : w.spawnOk pB.1 pB.2 = true)
    (hpC : w.spawnOk pC.1 pC.2 = true) :
    (w.waitResult pC.1 pC.2 = .ok (some 0) →
     w.waitResult pB.1 pB.2 = .ok (some 0) →
     w.waitResult pA.1 pA.2 = .ok (some 0) →
       (run_task w tf env (fuel + 3) a).1 = .ok () ∧
       spawns (run_task w tf env (fuel + 3) a).2 = [pC, pB, pA]) ∧
    (∀ st, w.waitResult pC.1 pC.2 = .ok st → st ≠ some 0 →
       run_task w tf env (fuel + 3) a =
         (.error (.taskFailed c (st.getD (-1))),
          [.spawned pC.1 pC.2, .spinnerSpawned c, .spinnerAborted c]) ∧
       spawns (run_task w tf env (fuel + 3) a).2 = [pC]) := by
  have leafC : ∀ (fuel' : Nat) (vis : List String), vis.contains c = false →
      runTask w tf env (fuel' + 1) c vis = execTask w env c tc := by
    intro fuel' vis hv
    rw [runTask]
    rw [if_neg (by simp at hv ⊢; exact hv)]
    simp only [hC, hdC, Option.getD_none]
    rw [runDeps.eq_def]
    simp
  have hvisC : ([] ++ [a] ++ [b]).contains c = false := by
    simp [Ne.symm hac, Ne.symm hbc]
  constructor
  · intro hwC hwB hwA
    have hexC : execTask w env c tc =
        (.ok (),
          [.spawned pC.1 pC.2, .spinnerSpawned c, .spinnerAborted c]) := by
      simp [execTask, hsC, hrC, hpC, hwC]
    have hexB : execTask w env b tb =
        (.ok (),
          [.spawned pB.1 pB.2, .spinnerSpawned b, .spinnerAborted b]) := by
      simp [execTask, hsB, hrB, hpB, hwB]
    have hexA : execTask w env a ta =
        (.ok (),
          [.spawned pA.1 pA.2, .spinnerSpawned a, .spinnerAborted a]) := by
      simp [execTask, hsA, hrA, hpA, hwA]
    have hrunB : runTask w tf env (fuel + 2) b ([] ++ [a]) =
        (.ok (), [.spawned pC.1 pC.2, .spinnerSpawned c, .spinnerAborted c]
          ++ [.spawned pB.1 pB.2, .spinnerSpawned b, .spinnerAborted b]) := by
      rw [runTask]
      rw [if_neg (by simp [Ne.symm hab])]
      simp only [hB, hdB, Option.getD_some]
      rw [runDeps.eq_def]
      simp only [has_task, hC, Option.isSome_some, if_true]
      rw [leafC fuel ([] ++ [a] ++ [b]) hvisC, hexC]
      rw [runDeps.eq_def]
      simp [hexB]
    rw [run_task, runTask]
    rw [if_neg (by simp)]
    simp only [hA, hdA, Option.getD_some]
    rw [runDeps.eq_def]
    simp only [has_task, hB, Option.isSome_some, if_true]
    rw [hrunB]
    rw [runDeps.eq_def]
    simp [hexA, spawns]
  · intro st hwC hne
    have hexC : execTask w env c tc =
        (.error (.taskFailed c (st.getD (-1))),
          [.spawned pC.1 pC.2, .spinnerSpawned c, .spinnerAborted c]) := by
      simp [execTask, hsC, hrC, hpC, hwC, hne]
    have hrunB : runTask w tf env (fuel + 2) b ([] ++ [a]) =
        (.error (.taskFailed c (st.getD (-1))),
          [.spawned pC.1 pC.2, .spinnerSpawned c, .spinnerAborted c]) := by
      rw [runTask]
      rw [if_neg (by simp [Ne.symm hab])]
      simp only [hB, hdB, Option.getD_some]
      rw [runDeps.eq_def]
      simp only [has_task, hC, Option.isSome_some, if_true]
      rw [leafC fuel ([] ++ [a] ++ [b]) hvisC, hexC]
    have hrunA : run_task w tf env (fuel + 3) a =
        (.error (.taskFailed c (st.getD (-1))),
          [.spawned pC.1 pC.2, .spinnerSpawned c, .spinnerAborted c]) := by
      rw [run_task, runTask]
      rw [if_neg (by simp)]
      simp only [hA, hdA, Option.getD_some]
      rw [runDeps.eq_def]
      simp only [has_task, hB, Option.isSome_some, if_true]
      rw [hrunB]
    refine ⟨hrunA, ?_⟩
    rw [hrunA]
    simp [spawns]

/-- Witness for C1 on a concrete three-task chain where every child
succeeds: the spawned commands appear in the order C, B, A. -/
theorem c1_chain_witness :
    (run_task wAllOk
      [("A", ⟨"a1", none, some ["B"]⟩), ("B", ⟨"b1", none, some ["C"]⟩),
        ("C", ⟨"c1", none, none⟩)] envNil 3 "A").1 = .ok () ∧
    spawns (run_task wAllOk
      [("A", ⟨"a1", none, some ["B"]⟩), ("B", ⟨"b1", none, some ["C"]⟩),
        ("C", ⟨"c1", none, none⟩)] envNil 3 "A").2 =
      [("c1", []), ("b1", []), ("a1", [])] :=
  (c1_chain_order_and_failure wAllOk
      [("A", ⟨"a1", none, some ["B"]⟩), ("B", ⟨"b1", none, some ["C"]⟩),
        ("C", ⟨"c1", none, none⟩)] envNil 0 "A" "B" "C"
      ⟨"a1", none, some ["B"]⟩ ⟨"b1", none, some ["C"]⟩
      ⟨"c1", none, none⟩ "a1" "b1" "c1" [] [] []
      ("a1", []) ("b1", []) ("c1", [])
      (by decide) (by decide) (by decide)
      (by simp [getTask]) rfl (by simp [getTask]) rfl (by simp [getTask]) rfl
      (by simp [splitWhitespace, splitWSAux, substitute_env_vars, substAux,
        envNil])
      (by simp [splitWhitespace, splitWSAux, substitute_env_vars, substAux,
        envNil])
      (by simp [splitWhitespace, splitWSAux, substitute_env_vars, substAux,
        envNil])
      (by simp [resolveCommand, wAllOk])
      (by simp [resolveCommand, wAllOk])
      (by simp [resolveCommand, wAllOk])
      rfl rfl rfl).1 rfl rfl rfl

end Taskfile
